import Mathlib

/-!
Verification of the Lakebridge LSP transpiler core against its specification.

The repository checkout only ships the unit tests of the LSP engine
(`tests/unit/transpiler/test_lsp_engine.py`); the module under test,
`databricks/labs/lakebridge/transpiler/lsp/lsp_engine.py`, is not part of the
checkout.  All definitions below are therefore modelled from the
specification's description of that module, with the behaviour at the
boundaries fixed by the expected input/output rows of the shipped unit tests.

Source text is embedded as `List Char`; LSP positions are zero-based
line/column pairs as in `lsprotocol.types.Position`.
-/

/-- Modelled from the spec: `lsprotocol.types.Position` — a zero-based line
and a zero-based column (UTF-16 code unit) inside a document. -/
structure LspPosition where
  line : Nat
  character : Nat
deriving DecidableEq, Repr

/-- Modelled from the spec: `lsprotocol.types.Range` — half-open, inclusive
start position, exclusive end position. -/
structure LspRange where
  rangeStart : LspPosition
  rangeEnd : LspPosition
deriving DecidableEq, Repr

/-- Modelled from the spec: `lsprotocol.types.TextEdit` — a `Range` plus the
replacement text. -/
structure TextEdit where
  range : LspRange
  newText : List Char
deriving DecidableEq, Repr

/-- Modelled from the spec: `ErrorKind` of
`databricks.labs.lakebridge.transpiler.transpile_status`. -/
inductive ErrorKind
  | ANALYSIS
  | GENERATION
  | INTERNAL
deriving DecidableEq, Repr

/-- Modelled from the spec: `ErrorSeverity` of
`databricks.labs.lakebridge.transpiler.transpile_status`. -/
inductive ErrorSeverity
  | INFO
  | WARNING
  | ERROR
deriving DecidableEq, Repr

/-- Modelled from the spec: `TranspileError` — the domain-level diagnostic
`(code, kind, severity, path, message)` tuple of §3. -/
structure TranspileError where
  code : List Char
  kind : ErrorKind
  severity : ErrorSeverity
  path : List Char
  message : List Char
deriving DecidableEq, Repr

/-- Modelled from the spec: `TranspileResult` — the merged text plus the
ordered diagnostics list (§3). -/
structure TranspileResult where
  transpiled_code : List Char
  error_list : List TranspileError
deriving DecidableEq, Repr

/-- Offsets just after each newline of the text, the walk starting at
absolute offset `i`.  Helper for `lineStarts`. -/
def lineStartsAux : List Char → Nat → List Nat
  | [], _ => []
  | c :: cs, i =>
      if c = '\n' then (i + 1) :: lineStartsAux cs (i + 1)
      else lineStartsAux cs (i + 1)

/-- Modelled from the spec: §4.5 "convert each edit's `Range` into an
absolute character offset pair by walking line boundaries once".  The start
offsets of the lines of `text`: offset 0, followed by the offset just after
each newline character. -/
def lineStarts (text : List Char) : List Nat :=
  0 :: lineStartsAux text 0

/-- The offset of the end of line `l` (just before its terminating newline,
or the end of the text for the last line). -/
def lineEndOffset (text : List Char) (l : Nat) : Nat :=
  if l + 1 < (lineStarts text).length then (lineStarts text).getD (l + 1) 0 - 1
  else text.length

/-- Modelled from the spec: conversion of an LSP position to an absolute
character offset (§4.5).  A column past the end of its line is clamped to
the line end, and a line at or past the number of lines maps to the end of
the text — the boundary behaviour fixed by the unit-test rows
`("a\n", Range (0,0)-(1,1) -> "b\n")` and
`("abbcccdddd", Range (0,0)-(1,0) -> replacement only)` of
`tests/unit/transpiler/test_lsp_engine.py`. -/
def posToOffset (text : List Char) (p : LspPosition) : Nat :=
  if p.line < (lineStarts text).length then
    min ((lineStarts text).getD p.line 0 + p.character) (lineEndOffset text p.line)
  else text.length

/-- Modelled from the spec: the incremental copy of §4.5 — copy verbatim
from the cursor (end of the previous edit, or start of file) up to the
current edit's start offset, emit the replacement text, advance the cursor
to the current edit's end offset; after the last edit copy the remainder. -/
def applyGo (text : List Char) (cursor : Nat) : List TextEdit → List Char
  | [] => text.drop cursor
  | e :: rest =>
      (text.drop cursor).take (posToOffset text e.range.rangeStart - cursor)
        ++ e.newText
        ++ applyGo text (posToOffset text e.range.rangeEnd) rest

/-- Modelled from the spec: `ChangeManager.apply(sourceText, edits,
diagnostics) -> TranspileResult` (§4.5) — applies the edits left to right
against the original offsets and pairs the merged text with the diagnostics
passed through unchanged. -/
def ChangeManager.apply (source_code : List Char) (changes : List TextEdit)
    (error_list : List TranspileError) : TranspileResult :=
  ⟨applyGo source_code 0 changes, error_list⟩

/-- Modelled from the spec: the number of lines of the source in the sense
of Python's `str.splitlines` (used by the tests to build whole-file
ranges): 0 for empty text, else the number of newlines when the text ends
with one, else one more than the number of newlines. -/
def lineCount (text : List Char) : Nat :=
  if text.getLast? = some '\n' then text.count '\n'
  else if text = [] then 0
  else text.count '\n' + 1

/-- Formalisation of the claim's wording "a `Range` end exceeding the final
line/column of the source": the end position, read against the line starts
of the source without clamping, does not denote a position of the source —
its line does not exist, or its column lies beyond the end of its line. -/
def rangeEndExceedsSource (text : List Char) (r : LspRange) : Bool :=
  if r.rangeEnd.line < (lineStarts text).length then
    decide (lineEndOffset text r.rangeEnd.line <
      (lineStarts text).getD r.rangeEnd.line 0 + r.rangeEnd.character)
  else true

-- Sanity checks against the test rows of `test_change_mgr_replaces_text`.

example : (ChangeManager.apply [] [] []).transpiled_code = [] := by decide

example :
    (ChangeManager.apply ['a', '\n']
      [⟨⟨⟨0, 0⟩, ⟨1, 1⟩⟩, ['b', '\n']⟩] []).transpiled_code = ['b', '\n'] := by
  decide

example :
    (ChangeManager.apply ['a', '\n']
      [⟨⟨⟨0, 0⟩, ⟨0, 1⟩⟩, ['b']⟩] []).transpiled_code = ['b', '\n'] := by
  decide

example :
    (ChangeManager.apply ['a', '\n', 'b', '\n', 'c', '\n']
      [⟨⟨⟨0, 0⟩, ⟨1, 1⟩⟩, ['x']⟩] []).transpiled_code
      = ['x', '\n', 'c', '\n'] := by
  decide

example :
    (ChangeManager.apply ['a', 'b', 'c']
      [⟨⟨⟨0, 1⟩, ⟨0, 2⟩⟩, ['x']⟩] []).transpiled_code = ['a', 'x', 'c'] := by
  decide

example :
    (ChangeManager.apply ['a', 'b', 'c', '\n', 'd', 'e', 'f', '\n', 'g', 'h', 'i']
      [⟨⟨⟨0, 2⟩, ⟨2, 1⟩⟩, ['x', '\n', 'y']⟩] []).transpiled_code
      = ['a', 'b', 'x', '\n', 'y', 'h', 'i'] := by
  decide

example :
    (ChangeManager.apply
      ['a', 'b', 'b', 'c', 'c', 'c', 'd', 'd', 'd', 'd']
      [⟨⟨⟨0, 0⟩, ⟨1, 0⟩⟩, ['1', '\n', '2', '2', '\n', '3', '3', '3', '\n', '4', '4', '4', '4', '\n']⟩]
      []).transpiled_code
      = ['1', '\n', '2', '2', '\n', '3', '3', '3', '\n', '4', '4', '4', '4', '\n'] := by
  decide

/-- C1: `ChangeManager.apply` with an empty edit list returns the source
text unchanged as the transpiled code, for every source text and every
diagnostics list. -/
theorem apply_empty_edits_is_identity (text : List Char)
    (diagnostics : List TranspileError) :
    (ChangeManager.apply text [] diagnostics).transpiled_code = text := by
  simp [ChangeManager.apply, applyGo]

/-- C2: `ChangeManager.apply` applies edits left to right against the
original (non-cumulative) offsets — for two edits the output is the source
up to the first edit's start, the first replacement, the source verbatim
between the first edit's end and the second edit's start, the second
replacement, and the source after the second edit's end, every offset taken
against the original source; and on `"abc\ndef\nghi"` the single edit from
line 0 column 2 to line 2 column 1 with replacement `"x\ny"` yields
`"abx\nyhi"`. -/
theorem apply_edits_left_to_right_original_offsets :
    (∀ (text n1 n2 : List Char) (r1 r2 : LspRange)
      (diagnostics : List TranspileError),
      (ChangeManager.apply text [⟨r1, n1⟩, ⟨r2, n2⟩] diagnostics).transpiled_code
        = text.take (posToOffset text r1.rangeStart) ++ n1
          ++ (text.take (posToOffset text r2.rangeStart)).drop
               (posToOffset text r1.rangeEnd)
          ++ n2 ++ text.drop (posToOffset text r2.rangeEnd))
    ∧ (ChangeManager.apply
        ['a', 'b', 'c', '\n', 'd', 'e', 'f', '\n', 'g', 'h', 'i']
        [⟨⟨⟨0, 2⟩, ⟨2, 1⟩⟩, ['x', '\n', 'y']⟩] []).transpiled_code
        = ['a', 'b', 'x', '\n', 'y', 'h', 'i'] := by
  constructor
  · intro text n1 n2 r1 r2 diagnostics
    simp [ChangeManager.apply, applyGo, List.drop_take]
  · decide

/-- C3 counterexample: the edit of unit-test row
`("a\n", [TextEdit(Range(Position(0, 0), Position(1, 1)), "b\n")], "b\n")`
has a `Range` end — line 1, column 1 — exceeding the final line/column of
the source `"a\n"`, yet `ChangeManager.apply` does not fail with
`MalformedEditError`: it returns the ordinary result `"b\n"` that the
repository's own test expects. -/
theorem apply_accepts_out_of_bounds_range_end :
    rangeEndExceedsSource ['a', '\n'] ⟨⟨0, 0⟩, ⟨1, 1⟩⟩ = true ∧
    (ChangeManager.apply ['a', '\n']
      [⟨⟨⟨0, 0⟩, ⟨1, 1⟩⟩, ['b', '\n']⟩] []).transpiled_code = ['b', '\n'] := by
  decide

/-- Every entry of `lineStartsAux cs i` is at most `i + cs.length`. -/
theorem lineStartsAux_le (cs : List Char) :
    ∀ (i x : Nat), x ∈ lineStartsAux cs i → x ≤ i + cs.length := by
  induction cs with
  | nil => intro i x hx; simp [lineStartsAux] at hx
  | cons c cs ih =>
      intro i x hx
      simp only [lineStartsAux] at hx
      by_cases hc : c = '\n'
      · rw [if_pos hc] at hx
        rcases List.mem_cons.mp hx with h1 | h2
        · simp [List.length_cons]; omega
        · have := ih (i + 1) x h2
          simp [List.length_cons]; omega
      · rw [if_neg hc] at hx
        have := ih (i + 1) x hx
        simp [List.length_cons]; omega

/-- Every entry of `lineStarts text` is at most `text.length`. -/
theorem lineStarts_mem_le (text : List Char) (x : Nat)
    (hx : x ∈ lineStarts text) : x ≤ text.length := by
  simp only [lineStarts, List.mem_cons] at hx
  rcases hx with rfl | hx
  · exact Nat.zero_le _
  · simpa using lineStartsAux_le text 0 x hx

/-- `getD` at an index within bounds returns a member of the list. -/
theorem getD_mem_of_lt (l : List Nat) (n d : Nat) (h : n < l.length) :
    l.getD n d ∈ l := by
  simp [List.getD, List.getElem?_eq_getElem h]

/-- `lineEndOffset` never exceeds the length of the text. -/
theorem lineEndOffset_le (text : List Char) (l : Nat) :
    lineEndOffset text l ≤ text.length := by
  unfold lineEndOffset
  split
  · rename_i h
    have hmem := getD_mem_of_lt (lineStarts text) (l + 1) 0 h
    have := lineStarts_mem_le text _ hmem
    omega
  · exact Nat.le_refl _

/-- `posToOffset` never exceeds the length of the text: clamped offsets are
always in bounds. -/
theorem posToOffset_le (text : List Char) (p : LspPosition) :
    posToOffset text p ≤ text.length := by
  unfold posToOffset
  split
  · exact Nat.le_trans (Nat.min_le_right _ _) (lineEndOffset_le text p.line)
  · exact Nat.le_refl _

/-- C3 amended: a `Range` end beyond the final line/column is not rejected —
`ChangeManager.apply` never raises; the position-to-offset conversion clamps
the end into bounds (its offset never exceeds the source length) and the
single-edit result is the source before the start offset, the replacement,
and the source from the (clamped) end offset on. -/
theorem apply_clamps_never_raises (text : List Char) (e : TextEdit)
    (diagnostics : List TranspileError) :
    posToOffset text e.range.rangeEnd ≤ text.length ∧
    (ChangeManager.apply text [e] diagnostics).transpiled_code
      = text.take (posToOffset text e.range.rangeStart) ++ e.newText
        ++ text.drop (posToOffset text e.range.rangeEnd) := by
  refine ⟨posToOffset_le text e.range.rangeEnd, ?_⟩
  simp [ChangeManager.apply, applyGo]

/-- `lineStartsAux` has one entry per newline character. -/
theorem lineStartsAux_length (cs : List Char) :
    ∀ i : Nat, (lineStartsAux cs i).length = cs.count '\n' := by
  induction cs with
  | nil => intro i; simp [lineStartsAux]
  | cons c cs ih =>
      intro i
      by_cases hc : c = '\n'
      · simp [lineStartsAux, hc, List.count_cons, ih]
      · simp [lineStartsAux, hc, List.count_cons, ih]

/-- `lineStartsAux` distributes over appending, shifting the walk offset. -/
theorem lineStartsAux_append (as : List Char) :
    ∀ (bs : List Char) (i : Nat),
      lineStartsAux (as ++ bs) i
        = lineStartsAux as i ++ lineStartsAux bs (i + as.length) := by
  induction as with
  | nil => intro bs i; simp [lineStartsAux]
  | cons a as ih =>
      intro bs i
      have harith : i + 1 + as.length = i + (as.length + 1) := by omega
      by_cases ha : a = '\n'
      · simp [lineStartsAux, ha, ih, harith]
      · simp [lineStartsAux, ha, ih, harith]

/-- Evaluation rule of `posToOffset` on an explicit line/column pair. -/
theorem posToOffset_eval (text : List Char) (l c : Nat) :
    posToOffset text ⟨l, c⟩
      = if l < (lineStarts text).length
        then min ((lineStarts text).getD l 0 + c) (lineEndOffset text l)
        else text.length := rfl

/-- The offset of the whole-file position `(lineCount text, 0)` is the end
of the text. -/
theorem posToOffset_lineCount (text : List Char) :
    posToOffset text ⟨lineCount text, 0⟩ = text.length := by
  rcases List.eq_nil_or_concat text with rfl | ⟨L, b, rfl⟩
  · decide
  · rw [List.concat_eq_append]
    by_cases hb : b = '\n'
    · subst hb
      have hlast : (L ++ ['\n']).getLast? = some '\n' := List.getLast?_concat L
      have hcount : (L ++ ['\n']).count '\n' = L.count '\n' + 1 := by
        simp [List.count_append]
      have hlc : lineCount (L ++ ['\n']) = L.count '\n' + 1 := by
        simp [lineCount, hlast, hcount]
      have haux : lineStartsAux (L ++ ['\n']) 0
          = lineStartsAux L 0 ++ [L.length + 1] := by
        rw [lineStartsAux_append]
        simp [lineStartsAux]
      have hauxlen : (lineStartsAux L 0).length = L.count '\n' :=
        lineStartsAux_length L 0
      have hlen : (lineStarts (L ++ ['\n'])).length = L.count '\n' + 2 := by
        simp [lineStarts, haux, hauxlen]
      have hgetD : (lineStarts (L ++ ['\n'])).getD (L.count '\n' + 1) 0
          = L.length + 1 := by
        simp only [lineStarts, haux, List.getD_cons_succ]
        rw [← hauxlen]
        simp [List.getD, List.getElem?_append_right (Nat.le_refl _)]
      have hend : lineEndOffset (L ++ ['\n']) (L.count '\n' + 1)
          = (L ++ ['\n']).length := by
        unfold lineEndOffset
        rw [if_neg (by omega)]
      rw [hlc, posToOffset_eval, if_pos (by omega), hgetD, hend]
      simp
    · have hlast : (L ++ [b]).getLast? = some b := List.getLast?_concat L
      have hcount : (L ++ [b]).count '\n' = L.count '\n' := by
        simp [List.count_append, List.count_cons, hb]
      have hne : L ++ [b] ≠ [] := by simp
      have hlc : lineCount (L ++ [b]) = L.count '\n' + 1 := by
        have hnotlast : ¬ ((L ++ [b]).getLast? = some '\n') := by
          rw [hlast]
          intro hcontra
          exact hb (Option.some.inj hcontra)
        simp [lineCount, hnotlast, hne, hcount, hb]
      have hlen : (lineStarts (L ++ [b])).length = L.count '\n' + 1 := by
        simp [lineStarts, lineStartsAux_length, List.count_append,
          List.count_cons, hb]
      rw [hlc, posToOffset_eval, if_neg (by omega)]

/-- C8: a single edit whose range runs from `(0, 0)` to `(lineCount, 0)` —
the line one past the last content line, column 0 — is accepted and the
result is exactly the replacement text, with nothing of the original source
appended, for every source text and replacement. -/
theorem apply_whole_file_range_is_replacement (text newText : List Char)
    (diagnostics : List TranspileError) :
    (ChangeManager.apply text
      [⟨⟨⟨0, 0⟩, ⟨lineCount text, 0⟩⟩, newText⟩] diagnostics).transpiled_code
      = newText := by
  have h0 : posToOffset text ⟨0, 0⟩ = 0 := by
    rw [posToOffset_eval, if_pos (by simp [lineStarts])]
    simp [lineStarts]
  have hend := posToOffset_lineCount text
  simp [ChangeManager.apply, applyGo, h0, hend, List.drop_length]

example :
    (ChangeManager.apply
      ['a', 'b', 'b', 'c', 'c', 'c', 'd', 'd', 'd', 'd']
      [⟨⟨⟨0, 0⟩, ⟨lineCount ['a', 'b', 'b', 'c', 'c', 'c', 'd', 'd', 'd', 'd'], 0⟩⟩,
        ['1', '\n', '2', '2', '\n', '3', '3', '3', '\n', '4', '4', '4', '4', '\n']⟩]
      []).transpiled_code
      = ['1', '\n', '2', '2', '\n', '3', '3', '3', '\n', '4', '4', '4', '4', '\n'] := by
  decide

/-- Modelled from the spec: the protocol-level diagnostic severities of LSP
(`DiagnosticSeverity`): ERROR, WARNING, INFORMATION, HINT. -/
inductive LspSeverity
  | lspError
  | lspWarning
  | lspInformation
  | lspHint
deriving DecidableEq, Repr

/-- Modelled from the spec: the kind tag supplied by the server with a
diagnostic (code-prefix or explicit tag, §4.6) — one of the two recognised
kinds, the explicit internal tag, or anything unrecognised. -/
inductive KindTag
  | tagAnalysis
  | tagGeneration
  | tagInternal
  | tagOther (n : Nat)
deriving DecidableEq, Repr

/-- Modelled from the spec: a protocol diagnostic as received from the
server — a code, a kind tag, a protocol severity, a URI path and a
message. -/
structure LspDiagnostic where
  code : List Char
  tag : KindTag
  severity : LspSeverity
  path : List Char
  message : List Char
deriving DecidableEq, Repr

/-- Modelled from the spec: the fixed severity table of §4.6 — protocol
ERROR maps to ERROR, WARNING to WARNING, INFORMATION and HINT to INFO. -/
def translateSeverity : LspSeverity → ErrorSeverity
  | .lspError => .ERROR
  | .lspWarning => .WARNING
  | .lspInformation => .INFO
  | .lspHint => .INFO

/-- Modelled from the spec: kind derivation of §4.6 — the server-supplied
tag picks ANALYSIS or GENERATION; anything unrecognised defaults to
INTERNAL and is never dropped. -/
def translateKind : KindTag → ErrorKind
  | .tagAnalysis => .ANALYSIS
  | .tagGeneration => .GENERATION
  | .tagInternal => .INTERNAL
  | .tagOther _ => .INTERNAL

/-- Modelled from the spec: translation of one protocol diagnostic into the
domain `TranspileError` (§4.6) — code, path and message pass through, kind
and severity go through the fixed tables. -/
def translateDiagnostic (d : LspDiagnostic) : TranspileError :=
  ⟨d.code, translateKind d.tag, translateSeverity d.severity, d.path, d.message⟩

/-- Modelled from the spec: translation of the server's diagnostics list,
one domain diagnostic per protocol diagnostic. -/
def translateDiagnostics (ds : List LspDiagnostic) : List TranspileError :=
  ds.map translateDiagnostic

/-- C6: the diagnostics translator maps severities by the fixed table
(ERROR to ERROR, WARNING to WARNING, INFORMATION and HINT to INFO), maps an
unrecognised kind tag to INTERNAL, never drops a diagnostic (the translated
list has one entry per input, with the input's code, path and message), and
is a pure table: for every protocol diagnostic the same `(kind, severity)`
pair results from equal inputs on every call. -/
theorem translator_fixed_tables_total_deterministic :
    (translateSeverity .lspError = .ERROR
      ∧ translateSeverity .lspWarning = .WARNING
      ∧ translateSeverity .lspInformation = .INFO
      ∧ translateSeverity .lspHint = .INFO)
    ∧ (∀ n : Nat, translateKind (.tagOther n) = .INTERNAL)
    ∧ (∀ ds : List LspDiagnostic, (translateDiagnostics ds).length = ds.length)
    ∧ (∀ d : LspDiagnostic,
        (translateDiagnostic d).code = d.code
          ∧ (translateDiagnostic d).path = d.path
          ∧ (translateDiagnostic d).message = d.message)
    ∧ (∀ d1 d2 : LspDiagnostic, d1 = d2 →
        ((translateDiagnostic d1).kind, (translateDiagnostic d1).severity)
          = ((translateDiagnostic d2).kind, (translateDiagnostic d2).severity)) := by
  refine ⟨⟨rfl, rfl, rfl, rfl⟩, fun n => rfl, fun ds => ?_, fun d => ⟨rfl, rfl, rfl⟩,
    fun d1 d2 h => by rw [h]⟩
  simp [translateDiagnostics]

/-- Modelled from the spec: the session states of the protocol client's
state machine (§3, §4.3). -/
inductive SessionState
  | UNINITIALIZED
  | INITIALIZING
  | READY
  | SHUTTING_DOWN
  | TERMINATED
deriving DecidableEq, Repr

/-- Modelled from the spec: an `EngineSession` (§3) — the state flag, the
liveness of the child process, and the ids of the PendingRequests. -/
structure EngineSession where
  state : SessionState
  processAlive : Bool
  pending : List Nat
deriving DecidableEq, Repr

/-- Modelled from the spec: `is_alive` of the engine — whether the child
process currently exists. -/
def EngineSession.is_alive (s : EngineSession) : Bool :=
  s.processAlive

/-- Modelled from the spec: a freshly constructed engine session — state
UNINITIALIZED, no child process, no pending requests. -/
def EngineSession.fresh : EngineSession :=
  ⟨.UNINITIALIZED, false, []⟩

/-- Modelled from the spec: the error taxonomy of §7 that the state-machine
operations can surface. -/
inductive EngineError
  | IllegalStateError
  | EngineInitializationError
  | SessionTerminatedError
  | EngineTimeoutError
deriving DecidableEq, Repr

/-- Modelled from the spec: the observable side effects of a state-machine
operation — spawning the child process, the protocol sends of the
handshake and teardown, and terminating the process. -/
inductive EngineAction
  | spawnProcess
  | sendInitializeRequest
  | sendInitializedNotification
  | sendShutdownRequest
  | sendExitNotification
  | terminateProcess
deriving DecidableEq, Repr

/-- Modelled from the spec: the outcome of the blocking initialize
handshake (§4.3) — the matching response arrived ok, an error response
arrived, or the bounded timeout elapsed. -/
inductive HandshakeOutcome
  | handshakeOk
  | handshakeError
  | handshakeTimeout
deriving DecidableEq, Repr

/-- The full observable result of one state-machine operation: the session
afterwards, the error surfaced to the caller (if any), the side effects
performed, and the pending requests failed, each with the error it was
failed with. -/
structure OpResult where
  session : EngineSession
  raised : Option EngineError
  actions : List EngineAction
  failedPending : List (Nat × EngineError)
deriving DecidableEq, Repr

/-- Modelled from the spec: `initialize()` (§4.3).  Only in UNINITIALIZED
does it spawn the process and run the handshake: on an ok response the
session becomes READY after the `initialized` notification, otherwise it
becomes TERMINATED with `EngineInitializationError`.  In any other state it
fails immediately with `IllegalStateError`, performing no side effect — it
never re-spawns or re-sends. -/
def EngineSession.initializeOp (s : EngineSession) (outcome : HandshakeOutcome) :
    OpResult :=
  match s.state with
  | .UNINITIALIZED =>
      match outcome with
      | .handshakeOk =>
          ⟨⟨.READY, true, s.pending⟩, none,
            [.spawnProcess, .sendInitializeRequest, .sendInitializedNotification],
            []⟩
      | _ =>
          ⟨⟨.TERMINATED, false, []⟩, some .EngineInitializationError,
            [.spawnProcess, .sendInitializeRequest, .terminateProcess],
            s.pending.map (fun i => (i, .SessionTerminatedError))⟩
  | _ => ⟨s, some .IllegalStateError, [], []⟩

/-- Modelled from the spec: `shutdown()` (§4.3) — valid in READY: sends the
`shutdown` request, awaits its response, sends the `exit` notification,
terminates the process, and fails every PendingRequest still outstanding
with `SessionTerminatedError`; the session ends TERMINATED with no live
process. -/
def EngineSession.shutdownOp (s : EngineSession) : OpResult :=
  match s.state with
  | .READY =>
      ⟨⟨.TERMINATED, false, []⟩, none,
        [.sendShutdownRequest, .sendExitNotification, .terminateProcess],
        s.pending.map (fun i => (i, .SessionTerminatedError))⟩
  | _ => ⟨s, some .IllegalStateError, [], []⟩

/-- Modelled from the spec: registering an outward `transpile` request
(§4.3) — valid in READY, where its correlation id joins the
PendingRequests; in any other state the call fails with
`IllegalStateError`. -/
def EngineSession.sendTranspile (s : EngineSession) (id : Nat) :
    EngineSession × Option EngineError :=
  match s.state with
  | .READY => (⟨.READY, s.processAlive, s.pending ++ [id]⟩, none)
  | _ => (s, some .IllegalStateError)

/-- Modelled from the spec: an unexpected exit of the child process (§4.3
failure semantics) — the session transitions directly to TERMINATED and
every pending request is failed with `SessionTerminatedError`. -/
def EngineSession.onProcessExit (s : EngineSession) :
    EngineSession × List (Nat × EngineError) :=
  (⟨.TERMINATED, false, []⟩, s.pending.map (fun i => (i, .SessionTerminatedError)))

/-- C10: a freshly constructed engine session, before `initialize` has been
called, reports `is_alive = false` — no child process exists in the
UNINITIALIZED state. -/
theorem fresh_session_not_alive :
    EngineSession.fresh.is_alive = false
      ∧ EngineSession.fresh.state = .UNINITIALIZED := by
  constructor <;> rfl

/-- C4: calling `initialize` on a session that is not UNINITIALIZED fails
immediately with `IllegalStateError`, whatever the handshake outcome would
have been: the session is unchanged, no pending request is failed, and the
empty action list shows that no process is spawned and nothing is sent. -/
theorem second_initialize_illegal_state (s : EngineSession)
    (outcome : HandshakeOutcome) (h : s.state ≠ .UNINITIALIZED) :
    EngineSession.initializeOp s outcome
      = ⟨s, some .IllegalStateError, [], []⟩ := by
  unfold EngineSession.initializeOp
  cases hs : s.state with
  | UNINITIALIZED => exact absurd hs h
  | INITIALIZING => rfl
  | READY => rfl
  | SHUTTING_DOWN => rfl
  | TERMINATED => rfl

/-- Witness for C4: a READY session obtained from a successful first
`initialize` of a fresh session rejects a second `initialize` with
`IllegalStateError` and performs no action. -/
theorem second_initialize_illegal_state_witness :
    ((EngineSession.initializeOp EngineSession.fresh .handshakeOk).session.state
        = .READY)
      ∧ (EngineSession.initializeOp
          (EngineSession.initializeOp EngineSession.fresh .handshakeOk).session
          .handshakeOk
        = ⟨(EngineSession.initializeOp EngineSession.fresh .handshakeOk).session,
            some .IllegalStateError, [], []⟩) :=
  ⟨rfl,
    second_initialize_illegal_state
      (EngineSession.initializeOp EngineSession.fresh .handshakeOk).session
      .handshakeOk (by decide)⟩

/-- C7: shutting down a READY session (one that has been initialized)
leaves `is_alive` false; the shutdown performs exactly the `shutdown`
request, the `exit` notification and the process termination, in that
order, raises nothing, and fails every outstanding PendingRequest with
`SessionTerminatedError`. -/
theorem shutdown_terminates_and_fails_pending (s : EngineSession)
    (h : s.state = .READY) :
    ((EngineSession.shutdownOp s).session.is_alive = false)
      ∧ ((EngineSession.shutdownOp s).session.state = .TERMINATED)
      ∧ ((EngineSession.shutdownOp s).raised = none)
      ∧ ((EngineSession.shutdownOp s).actions
          = [.sendShutdownRequest, .sendExitNotification, .terminateProcess])
      ∧ ((EngineSession.shutdownOp s).failedPending
          = s.pending.map (fun i => (i, .SessionTerminatedError))) := by
  unfold EngineSession.shutdownOp
  rw [h]
  exact ⟨rfl, rfl, rfl, rfl, rfl⟩

/-- Witness for C7: initialize a fresh session successfully, register a
transpile request, then shut down — the session is no longer alive and the
one outstanding request is failed with `SessionTerminatedError`. -/
theorem shutdown_terminates_and_fails_pending_witness :
    (((EngineSession.initializeOp EngineSession.fresh
        .handshakeOk).session.sendTranspile 1).1.state = .READY)
      ∧ ((EngineSession.shutdownOp
          ((EngineSession.initializeOp EngineSession.fresh
            .handshakeOk).session.sendTranspile 1).1).session.is_alive = false)
      ∧ ((EngineSession.shutdownOp
          ((EngineSession.initializeOp EngineSession.fresh
            .handshakeOk).session.sendTranspile 1).1).failedPending
          = [(1, .SessionTerminatedError)]) := by
  refine ⟨rfl, ?_, ?_⟩
  · exact (shutdown_terminates_and_fails_pending
      ((EngineSession.initializeOp EngineSession.fresh
        .handshakeOk).session.sendTranspile 1).1 rfl).1
  · exact (shutdown_terminates_and_fails_pending
      ((EngineSession.initializeOp EngineSession.fresh
        .handshakeOk).session.sendTranspile 1).1 rfl).2.2.2.2

/-- C5: if the child process exits unexpectedly while a transpile request
is outstanding on a READY session, that request is failed with
`SessionTerminatedError` (it does not stay pending), the session
transitions to TERMINATED, and every other pending request is failed the
same way. -/
theorem process_exit_fails_outstanding_transpile (s : EngineSession)
    (id : Nat) (h : s.state = .READY) :
    (((s.sendTranspile id).1.onProcessExit).1.state = .TERMINATED)
      ∧ (((s.sendTranspile id).1.onProcessExit).1.is_alive = false)
      ∧ ((id, .SessionTerminatedError)
          ∈ ((s.sendTranspile id).1.onProcessExit).2)
      ∧ (((s.sendTranspile id).1.onProcessExit).2
          = (s.pending ++ [id]).map (fun i => (i, .SessionTerminatedError)))
      ∧ (((s.sendTranspile id).1.onProcessExit).1.pending = []) := by
  unfold EngineSession.sendTranspile
  rw [h]
  refine ⟨rfl, rfl, ?_, rfl, rfl⟩
  unfold EngineSession.onProcessExit
  simp

/-- Witness for C5: a fresh session initialized successfully, with
transpile request id 7 outstanding, loses its child process — the request
is failed with `SessionTerminatedError` and the session is TERMINATED. -/
theorem process_exit_fails_outstanding_transpile_witness :
    ((((EngineSession.initializeOp EngineSession.fresh
          .handshakeOk).session.sendTranspile 7).1.onProcessExit).1.state
        = .TERMINATED)
      ∧ ((7, .SessionTerminatedError)
          ∈ (((EngineSession.initializeOp EngineSession.fresh
              .handshakeOk).session.sendTranspile 7).1.onProcessExit).2) :=
  ⟨(process_exit_fails_outstanding_transpile
      (EngineSession.initializeOp EngineSession.fresh .handshakeOk).session
      7 rfl).1,
    (process_exit_fails_outstanding_transpile
      (EngineSession.initializeOp EngineSession.fresh .handshakeOk).session
      7 rfl).2.2.1⟩

/-- Modelled from the spec: a path handed to `transpile` — either already
absolute or relative to the engine's current working directory.  Path
segments are abstract identifiers. -/
inductive PathSpec
  | absolute (segments : List Nat)
  | relative (segments : List Nat)
deriving DecidableEq, Repr

/-- Modelled from the spec: resolution of a path against the current
working directory — an absolute path stands as is, a relative path is
anchored at the working directory. -/
def resolvePath (cwd : List Nat) : PathSpec → List Nat
  | .absolute segs => segs
  | .relative segs => cwd ++ segs

/-- Modelled from the spec: §3 `DocumentHandle` — "a URI (absolute file
path, converted to a canonical file URI)".  The canonical file URI of a
path is determined by its resolved absolute form. -/
def fileUriOf (cwd : List Nat) (p : PathSpec) : List Nat :=
  resolvePath cwd p

/-- Modelled from the spec: the server's response to one transpile request,
as a function of the document URI it was sent — the list of TextEdits and
the list of protocol diagnostics (§4.3). -/
structure ServerBehavior where
  editsFor : List Nat → List TextEdit
  diagnosticsFor : List Nat → List LspDiagnostic

/-- Modelled from the spec: the READY-state `transpile` operation (§4.3) —
the path is converted to its canonical file URI, the request is sent, and
the server's TextEdits are applied to the source text by the Change
Manager, with the server's diagnostics translated into the result. -/
def transpileWithServer (server : ServerBehavior) (cwd : List Nat)
    (sourceText : List Char) (p : PathSpec) : TranspileResult :=
  ChangeManager.apply sourceText (server.editsFor (fileUriOf cwd p))
    (translateDiagnostics (server.diagnosticsFor (fileUriOf cwd p)))

/-- C9: for the same source text and the same server behaviour, `transpile`
with a relative path produces the same result — in particular the same
`transpiled_code` — as `transpile` with the corresponding absolute path
(the working directory followed by the relative segments): both are
canonicalized to the same file URI before being sent to the engine. -/
theorem transpile_relative_eq_absolute (server : ServerBehavior)
    (cwd : List Nat) (sourceText : List Char) (rel : List Nat) :
    transpileWithServer server cwd sourceText (.relative rel)
      = transpileWithServer server cwd sourceText (.absolute (cwd ++ rel)) := by
  unfold transpileWithServer fileUriOf resolvePath
  rfl

/-- Witness for C6: the severity table at HINT, and the determinism
conjunct applied to a concrete unrecognised-kind diagnostic, its equality
hypothesis discharged. -/
theorem translator_fixed_tables_witness :
    translateSeverity .lspHint = .INFO
      ∧ ((translateDiagnostic ⟨['E'], .tagOther 3, .lspWarning, ['p'], ['m']⟩).kind,
          (translateDiagnostic ⟨['E'], .tagOther 3, .lspWarning, ['p'], ['m']⟩).severity)
        = ((translateDiagnostic ⟨['E'], .tagOther 3, .lspWarning, ['p'], ['m']⟩).kind,
            (translateDiagnostic ⟨['E'], .tagOther 3, .lspWarning, ['p'], ['m']⟩).severity) :=
  ⟨translator_fixed_tables_total_deterministic.1.2.2.2,
    translator_fixed_tables_total_deterministic.2.2.2.2
      ⟨['E'], .tagOther 3, .lspWarning, ['p'], ['m']⟩
      ⟨['E'], .tagOther 3, .lspWarning, ['p'], ['m']⟩ rfl⟩
